import Mathlib

/-!
A shallow embedding of the parse-node engine of `nodes.go` (package
participle): the operator tree (struct, group, disjunction, sequence,
capture, reference, optional, repetition, literal, negation, custom), the
capture/assignment system (`conform`, `setField`) and the parse-context
operations the nodes use.

Modelling conventions:
* Machine integers are `Int`/`Nat`; `strconv.ParseInt`/`ParseUint` are
  modelled with explicit 2^w bounds.
* `reflect.Value`s are modelled by the closed `RValue` type; heap
  aliasing of struct values is modelled by a `Store` (list of struct
  objects) threaded through every operation, with `RValue.ref` an
  address into it.  Pointer hydration, the `Capture`/`TextUnmarshaler`
  interface branches and float fields are outside the modelled claims
  and are omitted (marked at their places in the code order).
* Go's `nil` vs empty slice distinction is kept: a node's value list is
  `Option (List RValue)` and `goAppend` mirrors Go `append` semantics.
* A Go `panic` is the `panicked` outcome.
* The parse-context implementation (`Branch`, `Accept`, `Stop`,
  `MaybeUpdateError`, `Defer`, `Apply`) and `ebnf` are code of this
  repository that is not under src/; those definitions are modelled
  from the spec and marked `Modelled from the spec:`.
* The package variable `MaxIterations` (default 1000000) is the
  parameter `m` of `parse`.
-/

namespace Participle

/-- A lexer token `{type, value, pos}`; `Position` is modelled by its
source offset. -/
structure Token where
  type : Int
  value : String
  pos : Nat
deriving DecidableEq

/-- `lexer.EOF`. -/
def eofType : Int := -1

/-- `Token.EOF()`. -/
def Token.isEOF (t : Token) : Bool := t.type = eofType

/-- The EOF sentinel token the peeking lexer yields past the end of the
stream; its position is the end-of-stream offset. -/
def eofTok (ts : List Token) : Token := ⟨eofType, "", ts.length⟩

/-- Errors produced by the engine.  `errorf` is `Errorf(pos, ...)`,
`plain` a position-less `fmt.Errorf`, `wrapped` the decoration added by
`decorate` in `setField`, and `unexpectedToken` is the distinct
`UnexpectedTokenError` struct type. -/
inductive PError where
  | unexpectedToken (got : Token) (expected : String)
  | errorf (pos : Nat) (msg : String)
  | plain (msg : String)
  | wrapped (pos : Option Nat) (name : String) (inner : PError)
deriving DecidableEq

def PError.isUnexpectedTok : PError → Bool
  | .unexpectedToken _ _ => true
  | _ => false

/-- Destination-slot kinds used by `conform`/`setField` (the closed
set of `reflect.Kind`s the claims exercise; floats and pointer kinds
are out of the modelled scope). -/
inductive FType where
  | intT
  | uintT
  | boolT
  | stringT
  | posT
  | tokenT
  | tokensT
  | structT
  | sliceT (elem : FType)
deriving DecidableEq

/-- Model of `reflect.Value`: a raw string, a scalar, a token or token
slice, a slice, or a reference to a struct object in the store. -/
inductive RValue where
  | str (s : String)
  | intV (n : Int)
  | uintV (n : Nat)
  | boolV (b : Bool)
  | posV (p : Nat)
  | tokenV (t : Token)
  | tokensV (ts : List Token)
  | sliceV (elem : FType) (xs : List RValue)
  | ref (a : Nat)

/-- `reflect.Value.Kind()` of a modelled value. -/
def rvKind : RValue → FType
  | .str _ => .stringT
  | .intV _ => .intT
  | .uintV _ => .uintT
  | .boolV _ => .boolT
  | .posV _ => .posT
  | .tokenV _ => .tokenT
  | .tokensV _ => .tokensT
  | .sliceV e _ => .sliceT e
  | .ref _ => .structT

/-- `reflect.Value.String()`: the string itself for string kinds,
otherwise the `<T Value>` placeholder Go produces. -/
def rvString : RValue → String
  | .str s => s
  | .intV _ => "<int Value>"
  | .uintV _ => "<uint Value>"
  | .boolV _ => "<bool Value>"
  | .posV _ => "<struct Value>"
  | .tokenV _ => "<struct Value>"
  | .tokensV _ => "<slice Value>"
  | .sliceV _ _ => "<slice Value>"
  | .ref _ => "<struct Value>"

def quoteS (s : String) : String := "\"" ++ s ++ "\""

/-- `structLexerField`: destination field name and index path (a single
index in the modelled flat structs). -/
structure SLField where
  name : String
  index : Nat
deriving DecidableEq

/-- A target struct type: its name and field declarations. -/
structure StructType where
  name : String
  fields : List (String × FType)

/-- A struct value allocated in the store. -/
structure StructObj where
  ty : StructType
  fields : List RValue

abbrev Store := List StructObj

/-- Zero value per field type (`reflect.New(...).Elem()`).  Struct-typed
fields are outside the modelled claims; their placeholder zero is a null
reference. -/
def FType.zero : FType → RValue
  | .intT => .intV 0
  | .uintT => .uintV 0
  | .boolT => .boolV false
  | .stringT => .str ""
  | .posT => .posV 0
  | .tokenT => .tokenV ⟨0, "", 0⟩
  | .tokensT => .tokensV []
  | .structT => .ref 0
  | .sliceT e => .sliceV e []

def newStructObj (ty : StructType) : StructObj :=
  ⟨ty, ty.fields.map (fun f => FType.zero f.2)⟩

/-- Allocate a fresh struct object, returning the new store and its
address. -/
def allocStruct (st : Store) (ty : StructType) : Store × Nat :=
  (st ++ [newStructObj ty], st.length)

/-- Write field `i` of the struct object at address `a`. -/
def updateField (st : Store) (a i : Nat) (v : RValue) : Store :=
  match st.get? a with
  | none => st
  | some obj => st.set a ⟨obj.ty, obj.fields.set i v⟩

/- `strconv.ParseInt(s, 0, w)` / `ParseUint(s, 0, w)` with base
auto-detection.  Digit-group underscores are not modelled (no claim
exercises them). -/

def digitVal (c : Char) : Option Nat :=
  if '0' ≤ c ∧ c ≤ '9' then some (c.toNat - '0'.toNat)
  else if 'a' ≤ c ∧ c ≤ 'z' then some (c.toNat - 'a'.toNat + 10)
  else if 'A' ≤ c ∧ c ≤ 'Z' then some (c.toNat - 'A'.toNat + 10)
  else none

def digitsValGo (base : Nat) : List Char → Nat → Option Nat
  | [], acc => some acc
  | c :: cs, acc =>
    match digitVal c with
    | some d => if d < base then digitsValGo base cs (acc * base + d) else none
    | none => none

def digitsVal (base : Nat) (cs : List Char) : Option Nat :=
  if cs.isEmpty then none else digitsValGo base cs 0

def parseBasePrefix : List Char → Nat × List Char
  | '0' :: 'x' :: rest => (16, rest)
  | '0' :: 'X' :: rest => (16, rest)
  | '0' :: 'o' :: rest => (8, rest)
  | '0' :: 'O' :: rest => (8, rest)
  | '0' :: 'b' :: rest => (2, rest)
  | '0' :: 'B' :: rest => (2, rest)
  | '0' :: rest => if rest.isEmpty then (10, ['0']) else (8, rest)
  | cs => (10, cs)

def goParseUint (s : String) (bits : Nat) : Option Nat :=
  match s.toList with
  | '+' :: _ => none
  | '-' :: _ => none
  | cs =>
    let p := parseBasePrefix cs
    match digitsVal p.1 p.2 with
    | none => none
    | some n => if n < 2 ^ bits then some n else none

def goParseIntMag (cs : List Char) (bits : Nat) (neg : Bool) : Option Int :=
  let p := parseBasePrefix cs
  match digitsVal p.1 p.2 with
  | none => none
  | some n =>
    if neg then (if n ≤ 2 ^ (bits - 1) then some (-(n : Int)) else none)
    else (if n < 2 ^ (bits - 1) then some (n : Int) else none)

def goParseInt (s : String) (bits : Nat) : Option Int :=
  match s.toList with
  | '+' :: rest => goParseIntMag rest bits false
  | '-' :: rest => goParseIntMag rest bits true
  | cs => goParseIntMag cs bits false

/-- `sizeOfKind` for the numeric kinds `conform` queries (the modelled
`int`/`uint` are 64-bit). -/
def sizeOfKind : FType → Nat
  | .intT => 64
  | .uintT => 64
  | _ => 64

/-- `conform` on a single value, in source order: the pointer-hydration
loop is omitted (no pointer field types in the model); then the
same-kind short-circuit; then the kind switch (`Int*`, `Uint*`, `Bool`;
the `Float*` case is outside the modelled claims); other kinds pass the
value through unchanged. -/
def conformOne (t : FType) (v : RValue) : Except PError RValue :=
  if rvKind v = t then .ok v
  else match t with
    | .intT =>
      match goParseInt (rvString v) (sizeOfKind .intT) with
      | none => .error (.plain ("invalid integer " ++ quoteS (rvString v)))
      | some n => .ok (.intV n)
    | .uintT =>
      match goParseUint (rvString v) (sizeOfKind .uintT) with
      | none => .error (.plain ("invalid integer " ++ quoteS (rvString v)))
      | some n => .ok (.uintV n)
    | .boolT => .ok (.boolV true)
    | _ => .ok v

/-- `conform(t, values)`: transform each value to type `t`; the first
failure aborts with the error (Go returns `nil, err`). -/
def conform (t : FType) : List RValue → Except PError (List RValue)
  | [] => .ok []
  | v :: vs =>
    match conformOne t v with
    | .error e => .error e
    | .ok v' =>
      match conform t vs with
      | .error e => .error e
      | .ok vs' => .ok (v' :: vs')

/-- Result of `setField`: success with the updated store, an error
(store unchanged by the failing call), or a Go runtime panic. -/
inductive SFRes where
  | ok (st : Store)
  | fail (e : PError) (st : Store)
  | panicked (e : PError)

/-- `nearestPos(tokens)`. -/
def nearestPos : List Token → Option Nat
  | [] => none
  | t :: _ => some t.pos

/-- `decorate`: wrap an error with the nearest position and the
qualified field name; successes and panics pass through. -/
def decorateE (pos : Option Nat) (name : String) : SFRes → SFRes
  | .fail e st => .fail (.wrapped pos name e) st
  | r => r

/-- The body of `setField` after the field has been resolved, in source
order: `Token`/`[]Token` fields; (the `Capture` and `TextUnmarshaler`
interface branches are outside the modelled claims); slice append;
string concatenation; then the scalar path with multi-token coalescing,
`conform`, and the per-kind switch (numeric increment-on-type-mismatch,
bool/struct). -/
def setFieldCore (toks : List Token) (obj : StructObj) (a : Nat) (field : SLField)
    (fieldValue : List RValue) (st : Store) : SFRes :=
  let fty := (obj.ty.fields.getD field.index ("", .intT)).2
  let f := obj.fields.getD field.index fty.zero
  if fty = .tokenT then
    match toks with
    | [] => .panicked (.plain "index out of range")
    | t0 :: _ => .ok (updateField st a field.index (.tokenV t0))
  else if fty = .tokensT then
    .ok (updateField st a field.index (.tokensV toks))
  else
    match fty with
    | .sliceT elemT =>
      match conform elemT fieldValue with
      | .error e => .fail e st
      | .ok vs =>
        let old := match f with | .sliceV _ xs => xs | _ => []
        .ok (updateField st a field.index (.sliceV elemT (old ++ vs)))
    | .stringT =>
      match conform .stringT fieldValue with
      | .error e => .fail e st
      | .ok vs =>
        let old := match f with | .str s => s | _ => ""
        .ok (updateField st a field.index
          (.str (vs.foldl (fun acc v => acc ++ rvString v) old)))
    | _ =>
      let fv1 := if fieldValue.length > 1
        then [RValue.str (String.join (fieldValue.map rvString))]
        else fieldValue
      match conform fty fv1 with
      | .error e => .fail e st
      | .ok [] => .panicked (.plain "index out of range")
      | .ok (fv :: _) =>
        match fty with
        | .intT =>
          if rvKind fv ≠ .intT then
            .ok (updateField st a field.index
              (.intV ((match f with | .intV n => n | _ => 0) + 1)))
          else .ok (updateField st a field.index fv)
        | .uintT =>
          if rvKind fv ≠ .uintT then
            .ok (updateField st a field.index
              (.uintV ((match f with | .uintV n => n | _ => 0) + 1)))
          else .ok (updateField st a field.index fv)
        | .boolT =>
          match fv with
          | .boolV b => .ok (updateField st a field.index (.boolV b))
          | _ =>
            if rvKind fv ≠ .boolT then
              .fail (.plain ("value " ++ quoteS (rvString fv) ++ " is not correct type")) st
            else .ok (updateField st a field.index fv)
        | .structT =>
          if rvKind fv ≠ .structT then
            .fail (.plain ("value " ++ quoteS (rvString fv) ++ " is not correct type")) st
          else .ok (updateField st a field.index fv)
        | .posT =>
          if rvKind fv ≠ .posT then
            .fail (.plain ("value " ++ quoteS (rvString fv) ++ " is not correct type")) st
          else .ok (updateField st a field.index fv)
        | _ => .fail (.plain ("unsupported field type for field " ++ field.name)) st

/-- `setField(tokens, strct, field, fieldValue)`: resolve the parent
struct reference in the store, run the core, and decorate any error
with position and qualified field name. -/
def setField (toks : List Token) (parentV : RValue) (field : SLField)
    (fieldValue : List RValue) (st : Store) : SFRes :=
  match parentV with
  | .ref a =>
    match st.get? a with
    | none => .fail (.plain "invalid struct reference") st
    | some obj =>
      decorateE (nearestPos toks) (obj.ty.name ++ "." ++ field.name)
        (setFieldCore toks obj a field fieldValue st)
  | _ => .fail (.plain "parent is not a struct reference") st

/-- A deferred capture log entry `(token range, parent, field, values)`. -/
structure DeferCapture where
  tokens : List Token
  parent : RValue
  field : SLField
  values : List RValue

/-- Modelled from the spec: execute deferred captures in order; on the
first failure abort and return the error (writes of earlier entries are
preserved). -/
def applyList : List DeferCapture → Store → SFRes
  | [], st => .ok st
  | d :: rest, st =>
    match setField d.tokens d.parent d.field d.values st with
    | .ok st' => applyList rest st'
    | .fail e st' => .fail e st'
    | .panicked e => .panicked e

/-- The parse context: token stream, cursor, deferred capture log,
deepest-error record and the per-kind case-insensitive predicate.
Modelled from the spec (the context implementation is not under src/);
elidable tokens are not modelled, so `peek`/`cursor` coincide with
`raw_peek`/`raw_cursor`. -/
structure Ctx where
  tokens : List Token
  cursor : Nat
  applyLog : List DeferCapture
  deepest : Nat
  deepestErr : Option PError
  ci : Int → Bool

/-- `peek(k)`: the token at offset `k`, or the EOF sentinel. -/
def Ctx.peek (c : Ctx) (k : Nat) : Token :=
  c.tokens.getD (c.cursor + k) (eofTok c.tokens)

/-- `next()`: consume and return the next token; at EOF the sentinel is
returned and the cursor does not move. -/
def Ctx.nextT (c : Ctx) : Token × Ctx :=
  if c.cursor < c.tokens.length
  then (c.tokens.getD c.cursor (eofTok c.tokens), {c with cursor := c.cursor + 1})
  else (eofTok c.tokens, c)

/-- `range(a, b)`: tokens in `[a, b)`. -/
def ctxRange (c : Ctx) (a b : Nat) : List Token :=
  (c.tokens.drop a).take (b - a)

/-- Modelled from the spec: `branch()` — same stream, independent
cursor at the current position, empty deferred log. -/
def branchCtx (c : Ctx) : Ctx := {c with applyLog := []}

/-- Modelled from the spec: `accept(branch)` — commit the branch cursor
and splice its deferred log onto the parent's. -/
def accept (c b : Ctx) : Ctx :=
  {c with cursor := b.cursor, applyLog := c.applyLog ++ b.applyLog,
          deepest := b.deepest, deepestErr := b.deepestErr}

/-- Modelled from the spec: `maybe_update_error(err)` — if the cursor is
at least the recorded deepest cursor, replace the deepest error. -/
def maybeUpdateError (c : Ctx) (e : PError) : Ctx :=
  if c.deepest ≤ c.cursor then {c with deepest := c.cursor, deepestErr := some e} else c

/-- Modelled from the spec: `stop(err, branch)` — the spec's minimum
contract: abort exactly when the branch consumed at least one token
past its start. -/
def stopPolicy (c : Ctx) (_e : PError) (b : Ctx) : Bool := c.cursor < b.cursor

/-- Result of `ctx.Apply()`: the context (log cleared on success, kept
on failure), the store after the executed writes, and the error if any. -/
inductive ApplyOut where
  | ok (c : Ctx) (st : Store) (e : Option PError)
  | panicked (e : PError)

/-- Modelled from the spec: `apply()` over the context's deferred log. -/
def applyCtx (c : Ctx) (st : Store) : ApplyOut :=
  match applyList c.applyLog st with
  | .ok st' => .ok {c with applyLog := []} st' none
  | .fail e st' => .ok c st' (some e)
  | .panicked e => .panicked e

/-- ASCII lower-casing of one character. -/
def foldChar (ch : Char) : Char :=
  if 'A' ≤ ch ∧ ch ≤ 'Z' then Char.ofNat (ch.toNat + 32) else ch

/-- `strings.EqualFold`, modelled as equality under ASCII case folding
(the Unicode simple folding of the Go original is outside the modelled
claims). -/
def eqFold (a b : String) : Bool :=
  a.toList.map foldChar == b.toList.map foldChar

/-- The group matching modes. -/
inductive GroupMode where
  | once
  | zeroOrOne
  | zeroOrMore
  | oneOrMore
  | nonEmpty
deriving DecidableEq

/-- Outcome of a user `Parseable.Parse`: the `NextMatch` sentinel,
success producing the instance value, or an error; the lexer cursor may
have been advanced in every case (the engine does not rewind it). -/
inductive CustomRes where
  | nextMatch
  | success (rv : RValue)
  | failure (e : PError)

/-- The parse-node algebra of `nodes.go`.  Constructor fields mirror
the Go structs; `custom` carries the user parse function acting on the
token stream and cursor. -/
inductive Node where
  | strct (typ : StructType) (expr : Node)
      (tokensIdx posIdx endPosIdx : Option Nat)
  | group (expr : Node) (mode : GroupMode)
  | disjunction (nodes : List Node)
  | sequence (items : List Node)
  | capture (field : SLField) (node : Node)
  | reference (typ : Int) (identifier : String)
  | optional (node : Node)
  | repetition (node : Node)
  | literal (s : String) (t : Int) (tt : String)
  | negation (node : Node)
  | custom (name : String) (f : List Token → Nat → Nat × CustomRes)

mutual

/-- Modelled from the spec: `String()`/`ebnf` — the human-readable
EBNF-ish description of a node (the `ebnf` function is not under src/). -/
def ebnf : Node → String
  | .strct _ expr _ _ _ => ebnf expr
  | .group expr mode =>
    "(" ++ ebnf expr ++ ")" ++
      (match mode with
        | .once => ""
        | .zeroOrOne => "?"
        | .zeroOrMore => "*"
        | .oneOrMore => "+"
        | .nonEmpty => "!")
  | .disjunction ns => ebnfJoin " | " ns
  | .sequence ns => ebnfJoin " " ns
  | .capture _ n => ebnf n
  | .reference _ ident => ident
  | .optional n => "[" ++ ebnf n ++ "]"
  | .repetition n => "\x7b" ++ ebnf n ++ "\x7d"
  | .literal s _ _ => quoteS s
  | .negation n => "!" ++ ebnf n
  | .custom name _ => name

def ebnfJoin (sep : String) : List Node → String
  | [] => ""
  | [n] => ebnf n
  | n :: n2 :: rest => ebnf n ++ sep ++ ebnfJoin sep (n2 :: rest)

end

def tooManyMsg (n : Node) (m : Nat) : String :=
  "too many iterations of " ++ ebnf n ++ " (> " ++ toString m ++ ")"

def branchMsg (a : Node) (bt : Token) : String :=
  "branch " ++ ebnf a ++ " was accepted but did not progress the lexer at "
    ++ toString bt.pos ++ " (" ++ quoteS bt.value ++ ")"

def nonEmptyMsg (g : Node) : String :=
  "sub-expression " ++ ebnf g ++ " cannot be empty"

def atLeastOnceMsg (g : Node) : String :=
  "sub-expression " ++ ebnf g ++ " must match at least once"

/-- Result of a `Parse` call: the Go `(out []reflect.Value, err error)`
pair plus the threaded context and store, or a panic. -/
inductive POut where
  | ok (vals : Option (List RValue)) (err : Option PError) (c : Ctx) (st : Store)
  | panicked (e : PError)

/-- Go `append(out, v...)` on possibly-nil slices: appending nothing to
nil stays nil. -/
def goAppend : Option (List RValue) → Option (List RValue) → Option (List RValue)
  | out, none => out
  | none, some [] => none
  | none, some (x :: xs) => some (x :: xs)
  | some ys, some xs => some (ys ++ xs)

/-- Result of the `repetition`/`group` loops: early `return out, err`
after a `Stop`, or the fall-through to the post-loop code with the loop
counter's final value, or a panic from the body. -/
inductive LoopRes where
  | stopped (i : Nat) (out : Option (List RValue)) (e : PError) (c : Ctx) (st : Store)
  | fin (i : Nat) (out : Option (List RValue)) (c : Ctx) (st : Store)
  | panicked (e : PError)

/-- The loop of `repetition.Parse` (`for i := 0; i < MaxIterations; i++`):
`fuel` is the remaining iteration budget `m - i`; each iteration
branches, parses the body, appends, and on error consults `Stop`
(without updating the deepest error — `repetition` does not call
`MaybeUpdateError`). -/
def repLoopF (pb : Ctx → Store → POut) (m : Nat) :
    Nat → Option (List RValue) → Ctx → Store → LoopRes
  | 0, out, c, st => .fin m out c st
  | fuel + 1, out, c, st =>
    let b := branchCtx c
    match pb b st with
    | .panicked e => .panicked e
    | .ok v e b' st' =>
      let out' := goAppend out v
      match e with
      | some err =>
        if stopPolicy c err b' then .stopped (m - (fuel + 1)) out' err c st'
        else .fin (m - (fuel + 1)) out' c st'
      | none =>
        let c2 := accept c b'
        if v.isNone then .fin (m - (fuel + 1)) out' c2 st'
        else repLoopF pb m fuel out' c2 st'

/-- The loop of `group.Parse` (`for ; matches < max; matches++`): like
the repetition loop but the error path first feeds the error to
`MaybeUpdateError` on the parent context. -/
def groupLoopF (pb : Ctx → Store → POut) (mx : Nat) :
    Nat → Option (List RValue) → Ctx → Store → LoopRes
  | 0, out, c, st => .fin mx out c st
  | fuel + 1, out, c, st =>
    let b := branchCtx c
    match pb b st with
    | .panicked e => .panicked e
    | .ok v e b' st' =>
      let out' := goAppend out v
      match e with
      | some err =>
        let c2 := maybeUpdateError c err
        if stopPolicy c2 err b' then .stopped (mx - (fuel + 1)) out' err c2 st'
        else .fin (mx - (fuel + 1)) out' c2 st'
      | none =>
        let c2 := accept c b'
        if v.isNone then .fin (mx - (fuel + 1)) out' c2 st'
        else groupLoopF pb mx fuel out' c2 st'

mutual

/-- `node.Parse(ctx, parent)` for every node kind, with `m` the value of
the package variable `MaxIterations`. -/
def parse (m : Nat) : Node → Ctx → Store → RValue → POut
  | .strct ty expr tokIdx pIdx eIdx, c, st, _parent =>
    let al := allocStruct st ty
    let a := al.2
    let sv := RValue.ref a
    let start := c.cursor
    let t := c.peek 0
    let st2 := match pIdx with
      | some i => updateField al.1 a i (.posV t.pos)
      | none => al.1
    match parse m expr c st2 sv with
    | .panicked e => .panicked e
    | .ok _out (some err) c' st' =>
      match applyCtx c' st' with
      | .panicked pe => .panicked pe
      | .ok c2 st2' _ => .ok (some [sv]) (some err) (maybeUpdateError c2 err) st2'
    | .ok none none c' st' => .ok none none c' st'
    | .ok (some _) none c' st' =>
      let endc := c'.cursor
      let t2 := c'.peek 0
      let st3 := match eIdx with
        | some i => updateField st' a i (.posV t2.pos)
        | none => st'
      let st4 := match tokIdx with
        | some i => updateField st3 a i (.tokensV (ctxRange c' start endc))
        | none => st3
      match applyCtx c' st4 with
      | .panicked pe => .panicked pe
      | .ok c2 st2' ae => .ok (some [sv]) ae c2 st2'
  | .group expr mode, c, st, parent =>
    match mode with
    | .nonEmpty =>
      match parse m expr c st parent with
      | .panicked e => .panicked e
      | .ok out (some err) c' st' => .ok out (some err) c' st'
      | .ok out none c' st' =>
        if (out.getD []).length = 0 then
          .ok out (some (.errorf (c'.peek 0).pos (nonEmptyMsg (.group expr mode)))) c' st'
        else .ok out none c' st'
    | .once => parse m expr c st parent
    | md =>
      let mn : Nat := match md with | .oneOrMore => 1 | _ => 0
      let mx : Nat := match md with | .zeroOrOne => 1 | _ => m
      match groupLoopF (fun cb stb => parse m expr cb stb parent) mx mx none c st with
      | .panicked e => .panicked e
      | .stopped _ out e c' st' => .ok out (some e) c' st'
      | .fin mats out c' st' =>
        let t := c'.peek 0
        if m ≤ mats then
          .panicked (.errorf t.pos (tooManyMsg (.group expr md) m))
        else if mats < mn then
          .ok out (some (.errorf t.pos (atLeastOnceMsg (.group expr md)))) c' st'
        else .ok (if mn = 0 ∧ out.isNone then some [] else out) none c' st'
  | .disjunction nodes, c, st, parent => disjGo m nodes 0 none none c st parent
  | .sequence items, c, st, parent => seqGo m items true none c st parent
  | .capture fld body, c, st, parent =>
    let start := c.cursor
    match parse m body c st parent with
    | .panicked e => .panicked e
    | .ok v e c' st' =>
      let c2 := match v with
        | some vs =>
          {c' with applyLog := c'.applyLog ++ [⟨ctxRange c' start c'.cursor, parent, fld, vs⟩]}
        | none => c'
      match e with
      | some err => .ok (some [parent]) (some err) c2 st'
      | none =>
        match v with
        | none => .ok none none c2 st'
        | some _ => .ok (some [parent]) none c2 st'
  | .reference ty _ident, c, st, _parent =>
    let token := c.peek 0
    if token.type ≠ ty then .ok none none c st
    else
      let n2 := c.nextT
      .ok (some [.str token.value]) none n2.2 st
  | .optional body, c, st, parent =>
    let b := branchCtx c
    match parse m body b st parent with
    | .panicked e => .panicked e
    | .ok out (some err) b' st' =>
      if stopPolicy c err b' then .ok out (some err) c st'
      else .ok (some (out.getD [])) none c st'
    | .ok out none b' st' =>
      .ok (some (out.getD [])) none (accept c b') st'
  | .repetition body, c, st, parent =>
    match repLoopF (fun cb stb => parse m body cb stb parent) m m none c st with
    | .panicked e => .panicked e
    | .stopped _ out e c' st' => .ok out (some e) c' st'
    | .fin i out c' st' =>
      let t := c'.peek 0
      if m ≤ i then .panicked (.errorf t.pos (tooManyMsg (.repetition body) m))
      else .ok (some (out.getD [])) none c' st'
  | .literal s t _tt, c, st, _parent =>
    let token := c.peek 0
    let equal := if c.ci token.type then eqFold token.value s else token.value == s
    if equal ∧ (t = -1 ∨ t = token.type) then
      let n2 := c.nextT
      .ok (some [.str n2.1.value]) none n2.2 st
    else .ok none none c st
  | .negation body, c, st, parent =>
    let b := branchCtx c
    let notEOF := c.peek 0
    if notEOF.isEOF then .ok none none c st
    else
      match parse m body b st parent with
      | .panicked e => .panicked e
      | .ok out e _b' st' =>
        if out.isSome ∧ e.isNone then
          .ok none (some (.errorf notEOF.pos ("unexpected '" ++ notEOF.value ++ "'"))) c st'
        else
          let n2 := c.nextT
          .ok (some [.str n2.1.value]) none n2.2 st'
  | .custom _name f, c, st, _parent =>
    let r := f c.tokens c.cursor
    let c2 := {c with cursor := r.1}
    match r.2 with
    | .nextMatch => .ok none none c2 st
    | .failure e => .ok none (some e) c2 st
    | .success rv => .ok (some [rv]) none c2 st

/-- The loop of `sequence.Parse`: iterate the items, appending child
values; a first-item nil propagates nil, a later nil raises
`UnexpectedTokenError{peek(0), n.String()}` with `n` the remaining
sequence. -/
def seqGo (m : Nat) : List Node → Bool → Option (List RValue) → Ctx → Store → RValue → POut
  | [], _, acc, c, st, _ => .ok acc none c st
  | it :: rest, first, acc, c, st, parent =>
    match parse m it c st parent with
    | .panicked e => .panicked e
    | .ok child e c' st' =>
      let out := goAppend acc child
      match e with
      | some err => .ok out (some err) c' st'
      | none =>
        match child with
        | none =>
          if first then .ok none none c' st'
          else
            .ok out (some (.unexpectedToken (c'.peek 0) (ebnf (.sequence (it :: rest))))) c' st'
        | some _ => seqGo m rest false out c' st' parent

/-- The loop of `disjunction.Parse`: branch each alternative in order;
on success with no lexer progress panic; on success accept and return;
on error consult `Stop`, else track the candidate failure that
progressed furthest; after exhaustion surface the deepest candidate or
return nil. -/
def disjGo (m : Nat) : List Node → Nat → Option PError → Option (List RValue) →
    Ctx → Store → RValue → POut
  | [], _, firstErr, firstVals, c, st, _ =>
    match firstErr with
    | some fe => .ok firstVals (some fe) (maybeUpdateError c fe) st
    | none => .ok none none c st
  | a :: rest, dE, firstErr, firstVals, c, st, parent =>
    let b := branchCtx c
    match parse m a b st parent with
    | .panicked e => .panicked e
    | .ok value (some err) b' st' =>
      if stopPolicy c err b' then .ok value (some err) c st'
      else if dE ≤ b'.cursor then disjGo m rest b'.cursor (some err) value c st' parent
      else disjGo m rest dE firstErr firstVals c st' parent
    | .ok (some vs) none b' st' =>
      let bt := b'.peek 0
      let ct := c.peek 0
      if bt = ct then .panicked (.errorf bt.pos (branchMsg a bt))
      else .ok (some vs) none (accept c b') st'
    | .ok none none _b' st' => disjGo m rest dE firstErr firstVals c st' parent

end

/-- The default of the package variable `MaxIterations`. -/
def maxIterationsDefault : Nat := 1000000

def POut.valsOf : POut → Option (List RValue)
  | .ok v _ _ _ => v
  | .panicked _ => none

def POut.errOf : POut → Option PError
  | .ok _ e _ _ => e
  | .panicked _ => none

def POut.isPanicked : POut → Bool
  | .panicked _ => true
  | _ => false

def POut.panicOf : POut → Option PError
  | .panicked e => some e
  | _ => none

def POut.cursorOf : POut → Nat
  | .ok _ _ c _ => c.cursor
  | .panicked _ => 0

def POut.storeOf : POut → Store
  | .ok _ _ _ st => st
  | .panicked _ => []

def POut.logOf : POut → List DeferCapture
  | .ok _ _ c _ => c.applyLog
  | .panicked _ => []

/-- A fresh context over a token stream (nothing consumed, no deferred
captures, no deepest error, no case-insensitive kinds). -/
def mkCtx (ts : List Token) : Ctx :=
  ⟨ts, 0, [], 0, none, fun _ => false⟩

/-!  Concrete grammars, token streams and helper lemmas used by the
claim theorems. -/

/-- The counter scenario's target type: one `int` field `count`. -/
def counterType : StructType := ⟨"T", [("count", .intT)]⟩

/-- `Struct{ fields: [ capture(count: Int, Repetition(Literal("+"))) ] }`. -/
def counterGrammar : Node :=
  .strct counterType (.capture ⟨"count", 0⟩ (.repetition (.literal "+" (-1) "+"))) none none none

/-- The input token stream `+ + +`. -/
def plusToks : List Token := [⟨43, "+", 0⟩, ⟨43, "+", 1⟩, ⟨43, "+", 2⟩]

/-- A `Parseable` body that consumes one token and then reports an
error (the `return nil, err` path of `parseable.Parse`). -/
def consumingFailure : Node :=
  .custom "consuming-failure" (fun _ cur => (cur + 1, .failure (.plain "custom failure")))

/-- If the peeked token is not the EOF sentinel, the cursor is inside
the stream. -/
theorem not_eof_lt (c : Ctx) (h : (c.peek 0).isEOF = false) :
    c.cursor < c.tokens.length := by
  by_contra hge
  push_neg at hge
  have hd : c.peek 0 = eofTok c.tokens := by
    unfold Ctx.peek
    exact List.getD_eq_default _ _ (by omega)
  rw [hd] at h
  simp [eofTok, Token.isEOF, eofType] at h

/-- Inside the stream, `next()` consumes exactly the peeked token. -/
theorem nextT_eq (c : Ctx) (h : c.cursor < c.tokens.length) :
    c.nextT = (c.peek 0, {c with cursor := c.cursor + 1}) := by
  unfold Ctx.nextT Ctx.peek
  rw [if_pos h]
  simp

/-- C1: the claim's counter scenario fails on this code.  For the
grammar `Struct{ capture(count: Int, Repetition(Literal("+"))) }` on the
token stream `+ + +`, the three captured `+` tokens are coalesced to the
string `+++`, `conform` rejects it with an `invalid integer` error
(instead of leaving the value a string so that `setField` increments),
and the parse returns the partial value with `count = 0` together with
the decorated error — not a successful parse with `count = 3`. -/
theorem counter_scenario_invalid_integer :
    (parse maxIterationsDefault counterGrammar (mkCtx plusToks) [] (.str "")).valsOf
        = some [.ref 0] ∧
    (parse maxIterationsDefault counterGrammar (mkCtx plusToks) [] (.str "")).errOf
        = some (.wrapped (some 0) "T.count" (.plain ("invalid integer " ++ quoteS "+++"))) ∧
    (parse maxIterationsDefault counterGrammar (mkCtx plusToks) [] (.str "")).storeOf
        = [⟨counterType, [.intV 0]⟩] ∧
    conform .intT [.str "+++"] = .error (.plain ("invalid integer " ++ quoteS "+++")) :=
  ⟨rfl, rfl, rfl, rfl⟩

/-- C4: a literal node matches exactly the tokens whose value equals
its expected string — compared case-insensitively iff the per-kind
case-insensitive flag is set for the token's kind — and whose kind
equals the literal's kind or whose expected kind is `-1`; on a match it
consumes exactly one token and returns the one-element list holding the
token's value, otherwise it returns nil without moving the cursor. -/
theorem literal_parse_characterization (m : Nat) (s : String) (t : Int) (tt : String)
    (c : Ctx) (st : Store) (parent : RValue) (h : c.cursor < c.tokens.length) :
    parse m (.literal s t tt) c st parent =
      if (if c.ci (c.peek 0).type then eqFold (c.peek 0).value s else (c.peek 0).value == s)
          ∧ (t = -1 ∨ t = (c.peek 0).type) then
        .ok (some [.str (c.peek 0).value]) none {c with cursor := c.cursor + 1} st
      else .ok none none c st := by
  simp only [parse, nextT_eq c h]

/-- C4 witness: the characterization applied to a matching token, a
non-matching token, and a case-insensitive match. -/
theorem literal_parse_characterization_witness :
    parse 5 (.literal "x" (-1) "x") (mkCtx [⟨7, "x", 0⟩]) [] (.str "")
        = .ok (some [.str "x"]) none ⟨[⟨7, "x", 0⟩], 1, [], 0, none, fun _ => false⟩ [] ∧
    parse 5 (.literal "x" (-1) "x") (mkCtx [⟨7, "y", 0⟩]) [] (.str "")
        = .ok none none (mkCtx [⟨7, "y", 0⟩]) [] ∧
    parse 5 (.literal "ab" (-1) "ab") ⟨[⟨7, "AB", 0⟩], 0, [], 0, none, fun _ => true⟩ [] (.str "")
        = .ok (some [.str "AB"]) none ⟨[⟨7, "AB", 0⟩], 1, [], 0, none, fun _ => true⟩ [] := by
  refine ⟨?_, ?_, ?_⟩
  · rw [literal_parse_characterization 5 "x" (-1) "x" _ [] (.str "") (by decide)]; rfl
  · rw [literal_parse_characterization 5 "x" (-1) "x" _ [] (.str "") (by decide)]; rfl
  · rw [literal_parse_characterization 5 "ab" (-1) "ab" _ [] (.str "") (by decide)]; rfl

/-- C6: if an alternative of a disjunction succeeds on its branch
without error but with zero-token progress relative to the parent
context, the engine panics with the degenerate-grammar error instead of
accepting the branch. -/
theorem disjunction_zero_progress_panics (m : Nat) (a : Node) (rest : List Node)
    (c : Ctx) (st : Store) (parent : RValue) (vs : List RValue) (b' : Ctx) (st' : Store)
    (h : parse m a (branchCtx c) st parent = .ok (some vs) none b' st')
    (hcur : b'.cursor = c.cursor) (htok : b'.tokens = c.tokens) :
    parse m (.disjunction (a :: rest)) c st parent =
      .panicked (.errorf (c.peek 0).pos (branchMsg a (c.peek 0))) := by
  have hpk : b'.peek 0 = c.peek 0 := by
    unfold Ctx.peek eofTok
    rw [hcur, htok]
  simp only [parse, disjGo]
  rw [h]
  simp [hpk]

/-- C6 witness: a repetition alternative that matches zero times
succeeds with no progress and makes the disjunction panic. -/
theorem disjunction_zero_progress_panics_witness :
    parse 9 (.disjunction [.repetition (.literal "x" (-1) "x")]) (mkCtx [⟨0, "y", 0⟩]) [] (.str "")
      = .panicked (.errorf 0 (branchMsg (.repetition (.literal "x" (-1) "x")) ⟨0, "y", 0⟩)) := by
  have h := disjunction_zero_progress_panics 9 (.repetition (.literal "x" (-1) "x")) []
    (mkCtx [⟨0, "y", 0⟩]) [] (.str "") [] (mkCtx [⟨0, "y", 0⟩]) [] rfl rfl rfl
  exact h

/-- C9: whenever the child of a capture node returns a non-nil value
list — with or without an error — a deferred capture entry holding
those values and the child's token range is appended to the context's
apply log, and the capture node returns the parent value together with
the child's error (if any). -/
theorem capture_defers_values_even_on_error (m : Nat) (fld : SLField) (body : Node)
    (c : Ctx) (st : Store) (parent : RValue) (vs : List RValue) (e : Option PError)
    (c' : Ctx) (st' : Store)
    (h : parse m body c st parent = .ok (some vs) e c' st') :
    parse m (.capture fld body) c st parent =
      .ok (some [parent]) e
        {c' with applyLog := c'.applyLog ++ [⟨ctxRange c' c.cursor c'.cursor, parent, fld, vs⟩]}
        st' := by
  simp only [parse]
  rw [h]
  cases e <;> rfl

/-- C9 witness: a non-empty group over a zero-match repetition returns
a non-nil empty list together with an error; the surrounding capture
still enqueues the (empty) values and surfaces the error with the
parent value. -/
theorem capture_defers_values_even_on_error_witness :
    parse 9 (.capture ⟨"f", 0⟩ (.group (.repetition (.literal "x" (-1) "x")) .nonEmpty))
        (mkCtx [⟨0, "y", 0⟩]) [] (.str "") =
      .ok (some [.str ""])
        (some (.errorf 0 (nonEmptyMsg (.group (.repetition (.literal "x" (-1) "x")) .nonEmpty))))
        ⟨[⟨0, "y", 0⟩], 0, [⟨[], .str "", ⟨"f", 0⟩, []⟩], 0, none, fun _ => false⟩ [] := by
  have h := capture_defers_values_even_on_error 9 ⟨"f", 0⟩
    (.group (.repetition (.literal "x" (-1) "x")) .nonEmpty)
    (mkCtx [⟨0, "y", 0⟩]) [] (.str "") []
    (some (.errorf 0 (nonEmptyMsg (.group (.repetition (.literal "x" (-1) "x")) .nonEmpty))))
    (mkCtx [⟨0, "y", 0⟩]) [] rfl
  exact h

/-- C10: for a boolean destination field, `setField` writes `true`
whenever the (single) applied capture value is not itself a boolean —
whatever the captured string's content and whatever the field's current
value, so repeated captures can never toggle it back to `false` — and
copies the value as-is when it already is a boolean. -/
theorem bool_field_assignment (toks : List Token) (st : Store) (a i : Nat) (obj : StructObj)
    (nm : String) (v : RValue)
    (hobj : st.get? a = some obj)
    (hty : (obj.ty.fields.getD i ("", .intT)).2 = .boolT) :
    setField toks (.ref a) ⟨nm, i⟩ [v] st =
      .ok (updateField st a i (.boolV (match v with | .boolV b => b | _ => true))) := by
  simp only [setField, hobj]
  unfold setFieldCore
  simp only [hty]
  cases v <;> simp [conform, conformOne, rvKind, decorateE]

/-- C10 witness: a string capture sets a false flag to true; a boolean
false value is copied as-is. -/
theorem bool_field_assignment_witness :
    setField [⟨0, "on", 0⟩] (.ref 0) ⟨"flag", 0⟩ [.str "no"]
        [⟨⟨"F", [("flag", .boolT)]⟩, [.boolV false]⟩]
      = .ok [⟨⟨"F", [("flag", .boolT)]⟩, [.boolV true]⟩] ∧
    setField [⟨0, "on", 0⟩] (.ref 0) ⟨"flag", 0⟩ [.boolV false]
        [⟨⟨"F", [("flag", .boolT)]⟩, [.boolV true]⟩]
      = .ok [⟨⟨"F", [("flag", .boolT)]⟩, [.boolV false]⟩] := by
  constructor
  · rw [bool_field_assignment [⟨0, "on", 0⟩] [⟨⟨"F", [("flag", .boolT)]⟩, [.boolV false]⟩] 0 0
      ⟨⟨"F", [("flag", .boolT)]⟩, [.boolV false]⟩ "flag" (.str "no") rfl rfl]
    rfl
  · rw [bool_field_assignment [⟨0, "on", 0⟩] [⟨⟨"F", [("flag", .boolT)]⟩, [.boolV true]⟩] 0 0
      ⟨⟨"F", [("flag", .boolT)]⟩, [.boolV true]⟩ "flag" (.boolV false) rfl rfl]
    rfl


/-- C2 counterexample: a `Parseable` body that consumes a token and
then fails makes both an optional node and a repetition node return a
nil value list (together with the error), because the stop policy
aborts; so "they always return a non-nil list" is false as stated. -/
theorem optional_repetition_nil_on_stopped_error :
    (parse maxIterationsDefault (.optional consumingFailure)
        (mkCtx [⟨0, "a", 0⟩]) [] (.str "")).valsOf = none ∧
    (parse maxIterationsDefault (.optional consumingFailure)
        (mkCtx [⟨0, "a", 0⟩]) [] (.str "")).isPanicked = false ∧
    (parse maxIterationsDefault (.optional consumingFailure)
        (mkCtx [⟨0, "a", 0⟩]) [] (.str "")).errOf = some (.plain "custom failure") ∧
    (parse maxIterationsDefault (.repetition consumingFailure)
        (mkCtx [⟨0, "a", 0⟩]) [] (.str "")).valsOf = none ∧
    (parse maxIterationsDefault (.repetition consumingFailure)
        (mkCtx [⟨0, "a", 0⟩]) [] (.str "")).isPanicked = false ∧
    (parse maxIterationsDefault (.repetition consumingFailure)
        (mkCtx [⟨0, "a", 0⟩]) [] (.str "")).errOf = some (.plain "custom failure") :=
  ⟨rfl, rfl, rfl, rfl, rfl, rfl⟩

/-- C2 (amended): whenever an optional or a repetition node returns
without error, the value list is non-nil — in particular the empty
non-nil list on a zero-time match; a nil list can escape only through
the stop early-return, together with the body error on which the stop
policy aborts (on the non-stop error path both nodes swallow the error
and fall through to the nil-to-empty normalisation). -/
theorem optional_repetition_non_nil_without_error (m : Nat) (body : Node) (c : Ctx)
    (st : Store) (parent : RValue) (vs : Option (List RValue)) (c' : Ctx) (st' : Store) :
    (parse m (.optional body) c st parent = .ok vs none c' st' → vs ≠ none) ∧
    (parse m (.repetition body) c st parent = .ok vs none c' st' → vs ≠ none) := by
  constructor
  · intro h
    simp only [parse] at h
    split at h
    · exact POut.noConfusion h
    · split at h
      · rw [POut.ok.injEq] at h
        simp at h
      · rw [POut.ok.injEq] at h
        obtain ⟨h1, -, -, -⟩ := h
        rw [← h1]
        simp
    · rw [POut.ok.injEq] at h
      obtain ⟨h1, -, -, -⟩ := h
      rw [← h1]
      simp
  · intro h
    simp only [parse] at h
    split at h
    · exact POut.noConfusion h
    · rw [POut.ok.injEq] at h
      simp at h
    · split at h
      · exact POut.noConfusion h
      · rw [POut.ok.injEq] at h
        obtain ⟨h1, -, -, -⟩ := h
        rw [← h1]
        simp

/-- C2 witness: an optional over a non-matching literal matches zero
times and returns the empty non-nil list. -/
theorem optional_repetition_non_nil_without_error_witness :
    parse 5 (.optional (.literal "x" (-1) "x")) (mkCtx [⟨0, "y", 0⟩]) [] (.str "")
        = .ok (some []) none (mkCtx [⟨0, "y", 0⟩]) [] ∧
    (some ([] : List RValue)) ≠ none := by
  refine ⟨rfl, ?_⟩
  exact (optional_repetition_non_nil_without_error 5 (.literal "x" (-1) "x")
    (mkCtx [⟨0, "y", 0⟩]) [] (.str "") (some []) (mkCtx [⟨0, "y", 0⟩]) []).1 rfl

/-- C3: a struct node: on body failure it best-effort applies the
deferred captures, records the error via the deepest-error update, and
returns the one-element list holding the freshly constructed (partially
filled) target value together with the error; on a nil body result
without error it returns nil. -/
theorem strct_error_and_nil_paths (m : Nat) (ty : StructType) (expr : Node)
    (tokIdx pIdx eIdx : Option Nat) (c : Ctx) (st : Store) (parent : RValue)
    (st2 : Store)
    (hst2 : st2 = (match pIdx with
      | some i => updateField (allocStruct st ty).1 (allocStruct st ty).2 i (.posV (c.peek 0).pos)
      | none => (allocStruct st ty).1)) :
    (∀ out err c' st',
      parse m expr c st2 (.ref (allocStruct st ty).2) = .ok out (some err) c' st' →
      parse m (.strct ty expr tokIdx pIdx eIdx) c st parent =
        (match applyCtx c' st' with
          | .panicked pe => .panicked pe
          | .ok c2 stA _ => .ok (some [.ref (allocStruct st ty).2]) (some err)
              (maybeUpdateError c2 err) stA)) ∧
    (∀ c' st',
      parse m expr c st2 (.ref (allocStruct st ty).2) = .ok none none c' st' →
      parse m (.strct ty expr tokIdx pIdx eIdx) c st parent = .ok none none c' st') := by
  subst hst2
  constructor
  · intro out err c' st' h
    cases out <;> (simp only [parse]; rw [h])
  · intro c' st' h
    simp only [parse]
    rw [h]

/-- C3 witness: the error path on a non-empty-group body (partial value
returned with the recorded error) and the nil path on a plain literal
body. -/
theorem strct_error_and_nil_paths_witness :
    parse 9 (.strct counterType (.group (.literal "x" (-1) "x") .nonEmpty) none none none)
        (mkCtx [⟨0, "y", 0⟩]) [] (.str "")
      = .ok (some [.ref 0])
          (some (.errorf 0 (nonEmptyMsg (.group (.literal "x" (-1) "x") .nonEmpty))))
          ⟨[⟨0, "y", 0⟩], 0, [], 0,
            some (.errorf 0 (nonEmptyMsg (.group (.literal "x" (-1) "x") .nonEmpty))),
            fun _ => false⟩
          [⟨counterType, [.intV 0]⟩] ∧
    parse 9 (.strct counterType (.literal "x" (-1) "x") none none none)
        (mkCtx [⟨0, "y", 0⟩]) [] (.str "")
      = .ok none none (mkCtx [⟨0, "y", 0⟩]) [⟨counterType, [.intV 0]⟩] := by
  constructor
  · exact (strct_error_and_nil_paths 9 counterType
      (.group (.literal "x" (-1) "x") .nonEmpty) none none none
      (mkCtx [⟨0, "y", 0⟩]) [] (.str "") [⟨counterType, [.intV 0]⟩] rfl).1
      none (.errorf 0 (nonEmptyMsg (.group (.literal "x" (-1) "x") .nonEmpty)))
      (mkCtx [⟨0, "y", 0⟩]) [⟨counterType, [.intV 0]⟩] rfl
  · exact (strct_error_and_nil_paths 9 counterType
      (.literal "x" (-1) "x") none none none
      (mkCtx [⟨0, "y", 0⟩]) [] (.str "") [⟨counterType, [.intV 0]⟩] rfl).2
      (mkCtx [⟨0, "y", 0⟩]) [⟨counterType, [.intV 0]⟩] rfl

/-- C5 counterexample: for the three-item sequence `"a" "b" "c"` on the
input `a x`, the raised error's expected description is that of the
whole remaining sequence (`"b" "c"`), not the description of the single
failing item (`"b"`). -/
theorem sequence_expected_is_tail_description :
    (parse 5 (.sequence [.literal "a" (-1) "a", .literal "b" (-1) "b", .literal "c" (-1) "c"])
        (mkCtx [⟨0, "a", 0⟩, ⟨0, "x", 1⟩]) [] (.str "")).errOf
      = some (.unexpectedToken ⟨0, "x", 1⟩ "\"b\" \"c\"") ∧
    (parse 5 (.sequence [.literal "a" (-1) "a", .literal "b" (-1) "b", .literal "c" (-1) "c"])
        (mkCtx [⟨0, "a", 0⟩, ⟨0, "x", 1⟩]) [] (.str "")).valsOf = some [.str "a"] ∧
    ebnf (.literal "b" (-1) "b") = "\"b\"" ∧
    ("\"b\" \"c\"" : String) ≠ "\"b\"" := by
  refine ⟨rfl, rfl, rfl, by decide⟩

/-- C5 (amended): if the first item of a sequence returns nil without
error the sequence returns nil; if a later item returns nil without
error the sequence raises `UnexpectedToken` whose got is the currently
peeked token and whose expected is the description of the remaining
sequence starting at that item, and the previously matched values
remain in the returned output list. -/
theorem sequence_nil_item_handling (m : Nat) (it : Node) (rest : List Node) (c : Ctx)
    (st : Store) (parent : RValue) (c' : Ctx) (st' : Store)
    (h : parse m it c st parent = .ok none none c' st') :
    (parse m (.sequence (it :: rest)) c st parent = .ok none none c' st') ∧
    (∀ acc, seqGo m (it :: rest) false acc c st parent =
      .ok acc (some (.unexpectedToken (c'.peek 0) (ebnf (.sequence (it :: rest))))) c' st') := by
  constructor
  · simp only [parse, seqGo]
    rw [h]
    rfl
  · intro acc
    simp only [seqGo]
    rw [h]
    cases acc <;> rfl

/-- C5 witness: a two-item sequence whose first item fails propagates
nil; the same items reached later in a sequence raise the
unexpected-token error and keep the earlier values. -/
theorem sequence_nil_item_handling_witness :
    parse 5 (.sequence [.literal "b" (-1) "b", .literal "c" (-1) "c"])
        (mkCtx [⟨0, "x", 0⟩]) [] (.str "") = .ok none none (mkCtx [⟨0, "x", 0⟩]) [] ∧
    seqGo 5 [.literal "b" (-1) "b", .literal "c" (-1) "c"] false (some [.str "a"])
        (mkCtx [⟨0, "x", 0⟩]) [] (.str "")
      = .ok (some [.str "a"])
          (some (.unexpectedToken ⟨0, "x", 0⟩
            (ebnf (.sequence [.literal "b" (-1) "b", .literal "c" (-1) "c"]))))
          (mkCtx [⟨0, "x", 0⟩]) [] := by
  have h := sequence_nil_item_handling 5 (.literal "b" (-1) "b") [.literal "c" (-1) "c"]
    (mkCtx [⟨0, "x", 0⟩]) [] (.str "") (mkCtx [⟨0, "x", 0⟩]) [] rfl
  exact ⟨h.1, h.2 (some [.str "a"])⟩

/-- The repetition loop's counter never exceeds the iteration budget. -/
theorem repLoopF_fin_le (pb : Ctx → Store → POut) (m : Nat) :
    ∀ fuel out c st i out' c' st',
      repLoopF pb m fuel out c st = .fin i out' c' st' → i ≤ m := by
  intro fuel
  induction fuel with
  | zero =>
    intro out c st i out' c' st' h
    simp only [repLoopF] at h
    rw [LoopRes.fin.injEq] at h
    obtain ⟨h1, -, -, -⟩ := h
    omega
  | succ n ih =>
    intro out c st i out' c' st' h
    simp only [repLoopF] at h
    split at h
    · exact LoopRes.noConfusion h
    · split at h
      · split at h
        · exact LoopRes.noConfusion h
        · rw [LoopRes.fin.injEq] at h
          obtain ⟨h1, -, -, -⟩ := h
          omega
      · split at h
        · rw [LoopRes.fin.injEq] at h
          obtain ⟨h1, -, -, -⟩ := h
          omega
        · exact ih _ _ _ _ _ _ _ h

/-- The group loop's match counter never exceeds its maximum. -/
theorem groupLoopF_fin_le (pb : Ctx → Store → POut) (mx : Nat) :
    ∀ fuel out c st i out' c' st',
      groupLoopF pb mx fuel out c st = .fin i out' c' st' → i ≤ mx := by
  intro fuel
  induction fuel with
  | zero =>
    intro out c st i out' c' st' h
    simp only [groupLoopF] at h
    rw [LoopRes.fin.injEq] at h
    obtain ⟨h1, -, -, -⟩ := h
    omega
  | succ n ih =>
    intro out c st i out' c' st' h
    simp only [groupLoopF] at h
    split at h
    · exact LoopRes.noConfusion h
    · split at h
      · split at h
        · exact LoopRes.noConfusion h
        · rw [LoopRes.fin.injEq] at h
          obtain ⟨h1, -, -, -⟩ := h
          omega
      · split at h
        · rw [LoopRes.fin.injEq] at h
          obtain ⟨h1, -, -, -⟩ := h
          omega
        · exact ih _ _ _ _ _ _ _ h

/-- C7: the repetition loop — and the group loop in ZeroOrMore or
OneOrMore mode — performs at most `MaxIterations` iterations, and when
the loop reaches that ceiling the parse aborts with an unrecoverable
panic carrying the current token's position. -/
theorem loop_iteration_ceiling (m : Nat) (body : Node) (c : Ctx) (st : Store)
    (parent : RValue) (i : Nat) (out : Option (List RValue)) (c' : Ctx) (st' : Store) :
    (repLoopF (fun cb stb => parse m body cb stb parent) m m none c st = .fin i out c' st' →
      i ≤ m ∧ (i = m → parse m (.repetition body) c st parent =
        .panicked (.errorf (c'.peek 0).pos (tooManyMsg (.repetition body) m)))) ∧
    (∀ md, (md = GroupMode.zeroOrMore ∨ md = GroupMode.oneOrMore) →
      groupLoopF (fun cb stb => parse m body cb stb parent) m m none c st = .fin i out c' st' →
      i ≤ m ∧ (i = m → parse m (.group body md) c st parent =
        .panicked (.errorf (c'.peek 0).pos (tooManyMsg (.group body md) m)))) := by
  constructor
  · intro h
    refine ⟨repLoopF_fin_le _ _ _ _ _ _ _ _ _ _ h, fun him => ?_⟩
    subst him
    simp only [parse]
    rw [h]
    simp
  · intro md hmd h
    refine ⟨groupLoopF_fin_le _ _ _ _ _ _ _ _ _ _ h, fun him => ?_⟩
    subst him
    rcases hmd with rfl | rfl <;>
      (simp only [parse]; rw [h]; simp)

/-- C7 witness: with the iteration budget set to 2, a repetition of a
literal that matches twice reaches the ceiling and panics at the
position of the current (EOF) token. -/
theorem loop_iteration_ceiling_witness :
    parse 2 (.repetition (.literal "a" (-1) "a"))
        (mkCtx [⟨0, "a", 0⟩, ⟨0, "a", 1⟩]) [] (.str "")
      = .panicked (.errorf 2 (tooManyMsg (.repetition (.literal "a" (-1) "a")) 2)) := by
  have h := ((loop_iteration_ceiling 2 (.literal "a" (-1) "a")
      (mkCtx [⟨0, "a", 0⟩, ⟨0, "a", 1⟩]) [] (.str "") 2 (some [.str "a", .str "a"])
      ⟨[⟨0, "a", 0⟩, ⟨0, "a", 1⟩], 2, [], 0, none, fun _ => false⟩ []).1 (by rfl)).2 rfl
  exact h

/-- C8 counterexample: when the negation's body matches, the error the
code raises is a plain `Errorf` parse error ("unexpected 'a'"), not an
`UnexpectedTokenError`; the cursor does not move. -/
theorem negation_error_is_not_unexpected_token :
    (parse 5 (.negation (.literal "a" (-1) "a")) (mkCtx [⟨0, "a", 0⟩]) [] (.str "")).errOf
      = some (.errorf 0 "unexpected 'a'") ∧
    ((parse 5 (.negation (.literal "a" (-1) "a")) (mkCtx [⟨0, "a", 0⟩]) [] (.str "")).errOf.map
        PError.isUnexpectedTok) = some false ∧
    (parse 5 (.negation (.literal "a" (-1) "a")) (mkCtx [⟨0, "a", 0⟩]) [] (.str "")).valsOf
      = none ∧
    (parse 5 (.negation (.literal "a" (-1) "a")) (mkCtx [⟨0, "a", 0⟩]) [] (.str "")).cursorOf
      = 0 :=
  ⟨rfl, rfl, rfl, rfl⟩

/-- C8 (amended): a negation node returns nil at EOF; if the body
succeeds without error on the branch it raises an `Errorf` parse error
"unexpected '<value>'" at the peeked token's position without consuming
input; otherwise it consumes exactly one token from the main cursor and
returns the one-element list holding that token's value. -/
theorem negation_parse_behavior (m : Nat) (body : Node) (c : Ctx) (st : Store)
    (parent : RValue) :
    ((c.peek 0).isEOF = true → parse m (.negation body) c st parent = .ok none none c st) ∧
    (∀ vs b' st', (c.peek 0).isEOF = false →
      parse m body (branchCtx c) st parent = .ok (some vs) none b' st' →
      parse m (.negation body) c st parent =
        .ok none (some (.errorf (c.peek 0).pos ("unexpected '" ++ (c.peek 0).value ++ "'")))
          c st') ∧
    (∀ out e b' st', (c.peek 0).isEOF = false →
      parse m body (branchCtx c) st parent = .ok out e b' st' →
      ¬(out.isSome ∧ e.isNone) →
      parse m (.negation body) c st parent =
        .ok (some [.str (c.peek 0).value]) none {c with cursor := c.cursor + 1} st') := by
  refine ⟨?_, ?_, ?_⟩
  · intro hE
    simp [parse, hE]
  · intro vs b' st' hE hb
    simp [parse, hE, hb]
  · intro out e b' st' hE hb hno
    have hlt := not_eof_lt c hE
    simp [parse, hE, hb, hno, nextT_eq c hlt]
    exact fun ho he => hno ⟨ho, by simp [he]⟩

/-- C8 witness: the EOF path, the body-matches path (error, no
consumption) and the no-match path (one token consumed). -/
theorem negation_parse_behavior_witness :
    parse 5 (.negation (.literal ";" (-1) ";")) (mkCtx []) [] (.str "")
        = .ok none none (mkCtx []) [] ∧
    parse 5 (.negation (.literal "a" (-1) "a")) (mkCtx [⟨0, "a", 0⟩]) [] (.str "")
        = .ok none (some (.errorf 0 "unexpected 'a'")) (mkCtx [⟨0, "a", 0⟩]) [] ∧
    parse 5 (.negation (.literal ";" (-1) ";")) (mkCtx [⟨0, "b", 0⟩]) [] (.str "")
        = .ok (some [.str "b"]) none ⟨[⟨0, "b", 0⟩], 1, [], 0, none, fun _ => false⟩ [] := by
  refine ⟨?_, ?_, ?_⟩
  · exact (negation_parse_behavior 5 (.literal ";" (-1) ";") (mkCtx []) [] (.str "")).1 rfl
  · exact (negation_parse_behavior 5 (.literal "a" (-1) "a")
      (mkCtx [⟨0, "a", 0⟩]) [] (.str "")).2.1 [.str "a"]
      ⟨[⟨0, "a", 0⟩], 1, [], 0, none, fun _ => false⟩ [] rfl rfl
  · exact (negation_parse_behavior 5 (.literal ";" (-1) ";")
      (mkCtx [⟨0, "b", 0⟩]) [] (.str "")).2.2 none none
      (mkCtx [⟨0, "b", 0⟩]) [] rfl rfl (by simp)

end Participle


